import Mathlib

/-!
Shallow embedding of the homepage feature-card component of the
eventum-core repository.  The component exists in two variants in the
source: one renders each record's illustration as an Svg component
(`SvgVariant` below), the other as an img node referring to a PNG asset
(`ImgVariant`).  Each variant defines a module-level constant
`FeatureList` of three records, a card function `Feature`, and an entry
point `HomepageFeatures` that maps `Feature` over `FeatureList` inside a
section / container / row tree of display nodes.  JSX elements are
embedded as an abstract display-node tree; the `key` attribute passed to
each card is host-framework reconciliation metadata and is not part of
the produced tree.
-/

/-- Rich-text content of a description fragment: plain text runs and
inline hyperlinks, as they appear in the JSX description fragments. -/
inductive Inline where
  | text (s : String)
  | link (href : String) (body : String)
deriving DecidableEq, Repr

/-- Abstract display node produced by the component: a container element
(its tag and className, with an ordered list of children), an Svg
illustration node, an img illustration node, a heading, or a paragraph
of rich text.  `illusSlot` is a hole standing for an erased illustration,
used only when comparing the two variants modulo their illustrations. -/
inductive Node where
  | container (tag className : String) (children : List Node)
  | svgNode (asset className role : String)
  | imgNode (className src : String)
  | heading (hAs content : String)
  | par (content : List Inline)
  | illusSlot
deriving Repr

/-- The clsx helper applied to a single constant class string returns
that string unchanged. -/
def clsx (s : String) : String := s

/-- The CSS module imported as `styles`: an opaque map from exported
class names to class strings.  Its values are never inspected by the
component, only forwarded into className attributes. -/
structure StylesModule where
  features : String
  featureSvg : String
  featureImage : String
deriving DecidableEq, Repr

/-- The `styles.module.css` import of the component. -/
def styles : StylesModule := ⟨"features", "featureSvg", "featureImage"⟩

/-- Description of the first feature record, identical in both source
variants. -/
def descTimeDist : List Inline :=
  [.text "Eventum offers various methods to define time distribution of events. From using cron expressions to combining probability distribution functions - make your own scenario."]

/-- Description of the second feature record, identical in both source
variants; it embeds an inline hyperlink to the Jinja documentation. -/
def descTemplate : List Inline :=
  [.text "With the power of ",
   .link "https://jinja.palletsprojects.com/templates/" "Jinja",
   .text ", it\x27s easy to design event template that suits your case. Additionally, advanced functionality enables you to save states, use samples, and run subprocesses directly from templates - very handy, isn\x27t it?"]

/-- Description of the third feature record, identical in both source
variants. -/
def descSend : List Inline :=
  [.text "You are free to choose where to send generated events. Print it to stdout, save it to a file or maybe send it to some endpoint - it\x27s up to you."]

namespace SvgVariant

/-- A feature record of the Svg variant: the JS object literal with its
`title`, `Svg` (the required svg asset), and `description` properties.
`extra` models any further enumerable properties the object may carry;
JS object spread forwards them to the card renderer, which never reads
them.  The three records of the source carry none. -/
structure FeatureRecord where
  title : String
  Svg : String
  description : List Inline
  extra : List (String × String)
deriving DecidableEq, Repr

/-- The module-level constant FeatureList of the Svg variant. -/
def FeatureList : List FeatureRecord :=
  [⟨"Define time distribution",
    "@site/static/img/undraw_docusaurus_mountain.svg", descTimeDist, []⟩,
   ⟨"Design event template",
    "@site/static/img/undraw_docusaurus_tree.svg", descTemplate, []⟩,
   ⟨"Send events anywhere",
    "@site/static/img/undraw_docusaurus_react.svg", descSend, []⟩]

/-- The Feature card function of the Svg variant: a col div holding a
centered div with the Svg illustration, then a centered padded div with
an h3 heading carrying the title and a paragraph carrying the
description. -/
def Feature (r : FeatureRecord) : Node :=
  .container "div" (clsx "col col--4")
    [.container "div" "text--center"
      [.svgNode r.Svg styles.featureSvg "img"],
     .container "div" "text--center padding-horiz--md"
      [.heading "h3" r.title,
       .par r.description]]

/-- The body of HomepageFeatures generalized over the list it maps
over: a section holding a container div holding a row div whose
children are one Feature card per record, in list order. -/
def renderFeatures (fs : List FeatureRecord) : Node :=
  .container "section" styles.features
    [.container "div" "container"
      [.container "div" "row" (fs.map Feature)]]

/-- The exported HomepageFeatures entry point of the Svg variant.  The
source function declares no parameters, so a caller-supplied props
argument of any type is ignored and the body renders the module
constant FeatureList. -/
def HomepageFeatures {α : Type} (_props : α) : Node :=
  .container "section" styles.features
    [.container "div" "container"
      [.container "div" "row" (FeatureList.map (fun props => Feature props))]]

end SvgVariant

namespace ImgVariant

/-- A feature record of the img variant: the JS object literal with its
`title`, `image` (the required png asset), and `description`
properties.  `extra` models any further enumerable properties the
object may carry; JS object spread forwards them to the card renderer,
which never reads them. -/
structure FeatureRecord where
  title : String
  image : String
  description : List Inline
  extra : List (String × String)
deriving DecidableEq, Repr

/-- The module-level constant FeatureList of the img variant. -/
def FeatureList : List FeatureRecord :=
  [⟨"Define time distribution",
    "@site/static/img/time_distribution.png", descTimeDist, []⟩,
   ⟨"Design event template",
    "@site/static/img/event_template.png", descTemplate, []⟩,
   ⟨"Send events anywhere",
    "@site/static/img/send_events.png", descSend, []⟩]

/-- The Feature card function of the img variant: identical to the Svg
variant except that the centered illustration div holds an img node
with the record's image as src. -/
def Feature (r : FeatureRecord) : Node :=
  .container "div" (clsx "col col--4")
    [.container "div" "text--center"
      [.imgNode styles.featureImage r.image],
     .container "div" "text--center padding-horiz--md"
      [.heading "h3" r.title,
       .par r.description]]

/-- The body of HomepageFeatures of the img variant generalized over
the list it maps over. -/
def renderFeatures (fs : List FeatureRecord) : Node :=
  .container "section" styles.features
    [.container "div" "container"
      [.container "div" "row" (fs.map Feature)]]

/-- The exported HomepageFeatures entry point of the img variant;
parameterless in the source, so any caller-supplied argument is
ignored. -/
def HomepageFeatures {α : Type} (_props : α) : Node :=
  .container "section" styles.features
    [.container "div" "container"
      [.container "div" "row" (FeatureList.map (fun props => Feature props))]]

end ImgVariant

/-- The observable environment of a render call: the module-level
feature list the entry point closes over, any shared mutable state the
page could expose, and a log of I/O actions.  The component's source
contains no assignment and no I/O call, so its embedding threads the
world through unchanged. -/
structure World (σ : Type) where
  features : List σ
  sharedState : List (String × String)
  ioLog : List String
deriving Repr

/-- One pass of the row body, FeatureList.map applied to the card
function, with the world threaded through every card call.  Each card
call is the pure expression of the source, returning its node and the
world it received. -/
def mapCall {σ : Type} (f : σ → Node) : World σ → List σ → List Node × World σ
  | w, [] => ([], w)
  | w, r :: rs =>
    let p : Node × World σ := (f r, w)
    let q := mapCall f p.2 rs
    (p.1 :: q.1, q.2)

/-- A full invocation of HomepageFeatures in a world: it reads the
feature list from the world, builds the section / container / row tree
around the mapped cards, and returns the tree together with the world
after the call. -/
def renderCall {σ : Type} (f : σ → Node) (w : World σ) : Node × World σ :=
  let q := mapCall f w w.features
  (.container "section" styles.features
    [.container "div" "container"
      [.container "div" "row" q.1]], q.2)

/-- Extracts the children of the row div from a rendered tree: the list
of card nodes.  Yields [] on a tree not of the produced shape. -/
def rowChildren : Node → List Node
  | .container "section" _ [.container "div" _ [.container "div" _ cs]] => cs
  | _ => []

/-- Recognizes the well-formed output shape: a section container
holding a container div holding a row div. -/
def isContainerTree : Node → Bool
  | .container "section" _ [.container "div" _ [.container "div" _ _]] => true
  | _ => false

/-- Extracts the heading content of a card node: the title shown in its
second child's heading.  Yields none on a node not of card shape. -/
def cardTitle : Node → Option String
  | .container _ _ [_, .container _ _ [.heading _ t, _]] => some t
  | _ => none

/-- Extracts the paragraph content of a card node: the description
shown in its second child's paragraph. -/
def cardBody : Node → Option (List Inline)
  | .container _ _ [_, .container _ _ [_, .par d]] => some d
  | _ => none

/-- Extracts the img src of a card node of the img variant: the asset
shown in its first child's img node. -/
def cardImage : Node → Option String
  | .container _ _ [.container _ _ [.imgNode _ src], _] => some src
  | _ => none

mutual

/-- The non-container nodes of a tree, in document order: flattening a
card this way lists its illustration, heading, and paragraph in the
order the card presents them. -/
def leaves : Node → List Node
  | .container _ _ cs => leavesList cs
  | .svgNode a c r => [.svgNode a c r]
  | .imgNode c s => [.imgNode c s]
  | .heading h t => [.heading h t]
  | .par d => [.par d]
  | .illusSlot => [.illusSlot]

/-- Document-order non-container nodes of a forest. -/
def leavesList : List Node → List Node
  | [] => []
  | n :: ns => leaves n ++ leavesList ns

end

mutual

/-- Erases every illustration node of a tree to the neutral
`illusSlot`, leaving all other structure and content intact; comparing
the two variants after this erasure compares everything but their
illustrations. -/
def scrub : Node → Node
  | .container t c cs => .container t c (scrubList cs)
  | .svgNode _ _ _ => .illusSlot
  | .imgNode _ _ => .illusSlot
  | .heading h t => .heading h t
  | .par d => .par d
  | .illusSlot => .illusSlot

/-- Illustration erasure mapped over a forest. -/
def scrubList : List Node → List Node
  | [] => []
  | n :: ns => scrub n :: scrubList ns

end

theorem mapCall_fst {σ : Type} (f : σ → Node) (w : World σ) (l : List σ) :
    (mapCall f w l).1 = l.map f := by
  induction l generalizing w with
  | nil => rfl
  | cons r rs ih => simp [mapCall, ih]

theorem mapCall_snd {σ : Type} (f : σ → Node) (w : World σ) (l : List σ) :
    (mapCall f w l).2 = w := by
  induction l generalizing w with
  | nil => rfl
  | cons r rs ih => simp [mapCall, ih]

theorem renderCall_fst {σ : Type} (f : σ → Node) (w : World σ) :
    (renderCall f w).1 =
      .container "section" styles.features
        [.container "div" "container"
          [.container "div" "row" (w.features.map f)]] := by
  simp [renderCall, mapCall_fst]

theorem rowChildren_shape (c1 c2 c3 : String) (cs : List Node) :
    rowChildren (.container "section" c1
      [.container "div" c2 [.container "div" c3 cs]]) = cs := rfl

theorem rowChildren_renderSvg (fs : List SvgVariant.FeatureRecord) :
    rowChildren (SvgVariant.renderFeatures fs) = fs.map SvgVariant.Feature :=
  rfl

theorem rowChildren_renderImg (fs : List ImgVariant.FeatureRecord) :
    rowChildren (ImgVariant.renderFeatures fs) = fs.map ImgVariant.Feature :=
  rfl

/-- C1: for every input list of N feature records, the row of the
rendered tree holds exactly N card nodes, and the card at output index
i is Feature applied to the record at input index i, in both variants;
the index-preserving map does no sorting, filtering, or deduplication,
so duplicate records each yield their own card. -/
theorem c1_order_preservation :
    (∀ fs : List SvgVariant.FeatureRecord,
      (rowChildren (SvgVariant.renderFeatures fs)).length = fs.length ∧
      ∀ i : Nat, (rowChildren (SvgVariant.renderFeatures fs))[i]? =
        (fs[i]?).map SvgVariant.Feature) ∧
    (∀ fs : List ImgVariant.FeatureRecord,
      (rowChildren (ImgVariant.renderFeatures fs)).length = fs.length ∧
      ∀ i : Nat, (rowChildren (ImgVariant.renderFeatures fs))[i]? =
        (fs[i]?).map ImgVariant.Feature) := by
  constructor <;> intro fs <;>
    simp [rowChildren_renderSvg, rowChildren_renderImg, List.getElem?_map]

/-- C2: for every record, in both variants, the card produced for it
carries a heading whose content is the record's title verbatim and a
paragraph whose content is the record's description verbatim. -/
theorem c2_content_fidelity :
    (∀ r : SvgVariant.FeatureRecord,
      cardTitle (SvgVariant.Feature r) = some r.title ∧
      cardBody (SvgVariant.Feature r) = some r.description) ∧
    (∀ r : ImgVariant.FeatureRecord,
      cardTitle (ImgVariant.Feature r) = some r.title ∧
      cardBody (ImgVariant.Feature r) = some r.description) :=
  ⟨fun _ => ⟨rfl, rfl⟩, fun _ => ⟨rfl, rfl⟩⟩

/-- C3: for every record, in both variants, flattening the produced
card in document order yields exactly the illustration node, then the
heading with the record's title, then the paragraph with the record's
description, in this fixed order. -/
theorem c3_card_child_order :
    (∀ r : SvgVariant.FeatureRecord,
      leaves (SvgVariant.Feature r) =
        [.svgNode r.Svg styles.featureSvg "img",
         .heading "h3" r.title, .par r.description]) ∧
    (∀ r : ImgVariant.FeatureRecord,
      leaves (ImgVariant.Feature r) =
        [.imgNode styles.featureImage r.image,
         .heading "h3" r.title, .par r.description]) :=
  ⟨fun _ => rfl, fun _ => rfl⟩

/-- C4: the empty feature list renders to a well-formed container tree
with zero card children, and on every input list the renderer completes
with a tree of the well-formed container shape, in both variants;
no input makes it fail. -/
theorem c4_empty_input_ok :
    rowChildren (SvgVariant.renderFeatures []) = [] ∧
    rowChildren (ImgVariant.renderFeatures []) = [] ∧
    (∀ fs : List SvgVariant.FeatureRecord,
      isContainerTree (SvgVariant.renderFeatures fs) = true) ∧
    (∀ fs : List ImgVariant.FeatureRecord,
      isContainerTree (ImgVariant.renderFeatures fs) = true) :=
  ⟨rfl, rfl, fun _ => rfl, fun _ => rfl⟩

theorem renderCall_snd {σ : Type} (f : σ → Node) (w : World σ) :
    (renderCall f w).2 = w := by
  simp [renderCall, mapCall_snd]

/-- C5: the rendered tree depends only on the feature list: two
invocations in worlds agreeing on the feature list produce equal trees,
and a second invocation in the world left by a first one reproduces the
first tree, in both variants; no state is held across invocations. -/
theorem c5_referential_transparency :
    (∀ w w' : World SvgVariant.FeatureRecord, w.features = w'.features →
      (renderCall SvgVariant.Feature w).1 = (renderCall SvgVariant.Feature w').1) ∧
    (∀ w : World SvgVariant.FeatureRecord,
      (renderCall SvgVariant.Feature (renderCall SvgVariant.Feature w).2).1 =
        (renderCall SvgVariant.Feature w).1) ∧
    (∀ w w' : World ImgVariant.FeatureRecord, w.features = w'.features →
      (renderCall ImgVariant.Feature w).1 = (renderCall ImgVariant.Feature w').1) ∧
    (∀ w : World ImgVariant.FeatureRecord,
      (renderCall ImgVariant.Feature (renderCall ImgVariant.Feature w).2).1 =
        (renderCall ImgVariant.Feature w).1) := by
  refine ⟨fun w w' h => ?_, fun w => ?_, fun w w' h => ?_, fun w => ?_⟩ <;>
    simp [renderCall_fst, renderCall_snd, *]

/-- C5 witness: two concrete worlds sharing the feature list but
differing in shared state and I/O log yield the same tree. -/
theorem c5_witness :
    (renderCall SvgVariant.Feature
      ⟨SvgVariant.FeatureList, [], []⟩).1 =
    (renderCall SvgVariant.Feature
      ⟨SvgVariant.FeatureList, [("visits", "7")], ["page loaded"]⟩).1 :=
  c5_referential_transparency.1 _ _ rfl

/-- C6: a render invocation leaves the world untouched in both
variants: the input feature list, the shared state, and the I/O log
after the call are those before it, so the call mutates nothing and
performs no I/O. -/
theorem c6_purity_frame :
    (∀ w : World SvgVariant.FeatureRecord,
      (renderCall SvgVariant.Feature w).2 = w) ∧
    (∀ w : World ImgVariant.FeatureRecord,
      (renderCall ImgVariant.Feature w).2 = w) :=
  ⟨fun w => renderCall_snd _ w, fun w => renderCall_snd _ w⟩

/-- C7: on the fixed three-record input of the img variant, the entry
point outputs one container whose row holds exactly three cards, in
input order, echoing the titles, the png illustrations, and the
descriptions unchanged. -/
theorem c7_example_scenario :
    (rowChildren (ImgVariant.HomepageFeatures ())).map cardTitle =
      [some "Define time distribution", some "Design event template",
       some "Send events anywhere"] ∧
    (rowChildren (ImgVariant.HomepageFeatures ())).map cardImage =
      [some "@site/static/img/time_distribution.png",
       some "@site/static/img/event_template.png",
       some "@site/static/img/send_events.png"] ∧
    (rowChildren (ImgVariant.HomepageFeatures ())).map cardBody =
      [some descTimeDist, some descTemplate, some descSend] :=
  ⟨rfl, rfl, rfl⟩

/-- C8: after erasing every illustration node, the trees produced by
the two variants for their respective fixed feature lists are equal:
same container structure, same number of cards in the same order, and
identical titles and descriptions per card. -/
theorem c8_variant_equivalence :
    scrub (SvgVariant.HomepageFeatures ()) =
      scrub (ImgVariant.HomepageFeatures ()) :=
  rfl

/-- C9: the entry point ignores any caller-supplied argument, of any
type: every invocation renders the module constant FeatureList of
three records, so the output is one fixed constant tree. -/
theorem c9_entry_point_ignores_input :
    (∀ (α β : Type) (p : α) (q : β),
      SvgVariant.HomepageFeatures p = SvgVariant.HomepageFeatures q) ∧
    (∀ (α : Type) (p : α),
      SvgVariant.HomepageFeatures p =
        SvgVariant.renderFeatures SvgVariant.FeatureList) ∧
    SvgVariant.FeatureList.length = 3 :=
  ⟨fun _ _ _ _ => rfl, fun _ _ => rfl, rfl⟩

/-- C10: the card produced for a record depends only on its
illustration, title, and description: two records agreeing on those
three fields yield equal cards in the matching variant even when their
remaining spread-but-unread properties differ. -/
theorem c10_card_reads_only_three_fields :
    (∀ r r' : SvgVariant.FeatureRecord, r.Svg = r'.Svg →
      r.title = r'.title → r.description = r'.description →
      SvgVariant.Feature r = SvgVariant.Feature r') ∧
    (∀ r r' : ImgVariant.FeatureRecord, r.image = r'.image →
      r.title = r'.title → r.description = r'.description →
      ImgVariant.Feature r = ImgVariant.Feature r') := by
  constructor <;> intro r r' h1 h2 h3 <;>
    simp [SvgVariant.Feature, ImgVariant.Feature, h1, h2, h3]

/-- C10 witness: two concrete records differing only in an extra
spread property yield the same card. -/
theorem c10_witness :
    SvgVariant.Feature
      ⟨"Send events anywhere", "@site/static/img/undraw_docusaurus_react.svg",
       descSend, [("hidden", "alpha")]⟩ =
    SvgVariant.Feature
      ⟨"Send events anywhere", "@site/static/img/undraw_docusaurus_react.svg",
       descSend, [("hidden", "beta")]⟩ :=
  c10_card_reads_only_three_fields.1 _ _ rfl rfl rfl
